import Mathlib

/-!
Verification development for `jira_handler.py` (itaymatza/jira-issues-creator).

The Python module is shallowly embedded below:

* JSON-like Python values become the inductive `PyVal`; Python dicts are
  insertion-ordered association lists over `String` keys, with
  `dictSet`/`dictGet?` reproducing Python's assignment/lookup semantics.
* Fallible Python code (KeyError, ValueError, TypeError, NameError,
  RuntimeError) becomes `Except PyErr`.
* The network is abstracted into a `JiraEnv` record holding the data the
  three GET lookups would return (projects, boards per project, sprints per
  board); the lookup functions themselves are embedded faithfully.
* The response-handling path of `send_request` is embedded over an abstract
  `HttpResponse` (status, body text, and the JSON-parse of the body).
* The recursive tree walk (`create_list_of_jira_issues`,
  `create_epics_and_issues`) is embedded as trace functions that record the
  order of issue-creation calls on the all-creations-succeed path, over a
  tree type `JIssue` carrying exactly the keys the walk itself reads.
-/

/-- JSON-like Python value. Dicts are insertion-ordered association lists
with string keys, as produced by parsing the JSON work description. -/
inductive PyVal where
  | pyNone : PyVal
  | str : String → PyVal
  | int : Int → PyVal
  | bool : Bool → PyVal
  | list : List PyVal → PyVal
  | dict : List (String × PyVal) → PyVal

/-- Python exception kinds raised by the embedded code paths. -/
inductive PyErr where
  | keyError : String → PyErr
  | valueError : String → PyErr
  | typeError : String → PyErr
  | nameError : String → PyErr
  | runtimeError : String → PyErr
deriving DecidableEq

/-- A Python dict of string keys (e.g. an issue spec or a wire body). -/
abbrev PyDict := List (String × PyVal)

/-- Python `d.get(k)` / `k in d`: first binding of `k` wins (keys are unique
in dicts parsed from JSON, and `dictSet` keeps them unique). -/
def dictGet? (d : PyDict) (k : String) : Option PyVal :=
  match d with
  | [] => none
  | (k', v) :: rest => if k' = k then some v else dictGet? rest k

/-- Python `d[k]`: raises `KeyError` when the key is absent. -/
def dictGet (d : PyDict) (k : String) : Except PyErr PyVal :=
  match dictGet? d k with
  | some v => Except.ok v
  | none => Except.error (PyErr.keyError k)

/-- Python `k in d`. -/
def dictContains (d : PyDict) (k : String) : Bool :=
  (dictGet? d k).isSome

/-- Python `d[k] = v`: replaces the value in place when the key exists,
otherwise appends the new binding (insertion order is preserved). -/
def dictSet (d : PyDict) (k : String) (v : PyVal) : PyDict :=
  match d with
  | [] => [(k, v)]
  | (k', v') :: rest =>
      if k' = k then (k', v) :: rest else (k', v') :: dictSet rest k v

/-- Python `d.keys()` in iteration order. -/
def dictKeys (d : PyDict) : List String := d.map Prod.fst

/-- Python truthiness of a value. -/
def pyTruthy : PyVal → Bool
  | PyVal.pyNone => false
  | PyVal.str s => s ≠ ""
  | PyVal.int n => n ≠ 0
  | PyVal.bool b => b
  | PyVal.list xs => ¬ xs.isEmpty
  | PyVal.dict xs => ¬ xs.isEmpty

/-- Coerce to a dict; a non-dict raises `TypeError` (stands for Python's
`AttributeError`/`TypeError` when dict operations hit a non-dict). -/
def asDict : PyVal → Except PyErr PyDict
  | PyVal.dict d => Except.ok d
  | _ => Except.error (PyErr.typeError "expected dict")

/-- Coerce to a list; a non-list raises `TypeError`. -/
def asList : PyVal → Except PyErr (List PyVal)
  | PyVal.list xs => Except.ok xs
  | _ => Except.error (PyErr.typeError "expected list")

/-- Coerce to a string usable as a dict key; a non-string (e.g. a nested
dict used as a key) raises `TypeError` (unhashable / bad key). -/
def asStr : PyVal → Except PyErr String
  | PyVal.str s => Except.ok s
  | _ => Except.error (PyErr.typeError "expected str")

/-- Truthiness of an `Optional[str]` argument (`if epic_key:`): present and
non-empty. -/
def truthyOpt : Option String → Bool
  | none => false
  | some s => s ≠ ""

/-- The `jira_special_fields` configuration held on the `Jira` object after
`__init__` (each entry read with `.get(..., default)`). -/
structure JiraConfig where
  name_format_fields : List String
  key_format_fields : List String
  custom_field_mapping : PyDict
  post_creation_update_fields : List String

/-- Abstraction of the tracker data behind the three GET lookups:
the project list, the boards returned per project id, and the sprint
(name, id) list returned per board id. -/
structure JiraEnv where
  projects : List (String × String)
  boards : String → List String
  sprints : String → List (String × String)

/-- `Jira.get_project_id_by_key`: GET all projects, linear-scan for the
matching key, `RuntimeError` when absent. -/
def get_project_id_by_key (env : JiraEnv) (project_key : String) :
    Except PyErr String :=
  match env.projects.find? (fun p => p.1 = project_key) with
  | some p => Except.ok p.2
  | none =>
      Except.error (PyErr.runtimeError
        ("Project key " ++ project_key ++ " not found."))

/-- `Jira.get_board_id_by_project_key`: resolve the project id, GET the
project's boards, return the first board's id; `RuntimeError` when the
board list is empty. -/
def get_board_id_by_project_key (env : JiraEnv) (project_key : String) :
    Except PyErr String := do
  let project_id ← get_project_id_by_key env project_key
  match env.boards project_id with
  | [] =>
      Except.error (PyErr.runtimeError
        ("No boards found for project key " ++ project_key ++ "."))
  | b :: _ => Except.ok b

/-- `Jira.get_sprint_id`: GET the board's sprints, linear-scan for an exact
(case-sensitive) name match, `none` when absent (no exception). -/
def get_sprint_id (env : JiraEnv) (board_id : String) (sprint_name : String) :
    Option String :=
  match (env.sprints board_id).find? (fun s => s.1 = sprint_name) with
  | some s => some s.2
  | none => none

/-- Sprint lookup as invoked from `_build_issue_data`, where the sprint
field's value is an arbitrary `PyVal`: a Python `==` between a sprint name
(a `str`) and a non-`str` value is `False`, so only string values can
match. -/
def sprintLookupVal (env : JiraEnv) (board_id : String) : PyVal → Option String
  | PyVal.str s => get_sprint_id env board_id s
  | _ => none

/-- `transform_field_value` (the helper inside `_build_issue_data`).

For a dict value the source runs `[{key: val} for key, val in field_value]`:
iterating a Python dict yields its KEYS, and each key (a string) is
unpacked into exactly two items, i.e. its two characters — a key whose
length is not 2 raises `ValueError`. A non-dict value is wrapped as
`{key_type: value}`. -/
def transform_field_value (field_value : PyVal) (key_type : String) :
    Except PyErr PyVal :=
  match field_value with
  | PyVal.dict entries => do
      let items ← entries.mapM (fun kv =>
        match kv.1.data with
        | [a, b] =>
            Except.ok (PyVal.dict [(String.mk [a], PyVal.str (String.mk [b]))])
        | _ =>
            Except.error (PyErr.valueError "cannot unpack dict key into key, val"))
      Except.ok (PyVal.list items)
  | v => Except.ok (PyVal.dict [(key_type, v)])

/-- One iteration of the `for field_name, field_value in fields.items()`
loop of `_build_issue_data`, acting on the accumulated
`issue_data['fields']` dict. -/
def buildStep (cfg : JiraConfig) (env : JiraEnv) (jira_project : String)
    (exclude_fields : List String) (acc : PyDict) (fv : String × PyVal) :
    Except PyErr PyDict :=
  let field_name := fv.1
  let field_value := fv.2
  if field_name = "issues" then Except.ok acc
  else if field_name ∈ exclude_fields then Except.ok acc
  else if field_name = "issuelinks" then Except.ok acc
  else if field_name ∈ cfg.key_format_fields then do
    let v ← transform_field_value field_value "key"
    Except.ok (dictSet acc field_name v)
  else if field_name ∈ cfg.name_format_fields then do
    let v ← transform_field_value field_value "name"
    Except.ok (dictSet acc field_name v)
  else if dictContains cfg.custom_field_mapping field_name then
    if field_name = "sprint" then do
      let project_board_id ← get_board_id_by_project_key env jira_project
      let custom_field_name ← dictGet cfg.custom_field_mapping field_name
      let cfn ← asStr custom_field_name
      let sprint_id := sprintLookupVal env project_board_id field_value
      Except.ok (dictSet acc cfn
        (match sprint_id with
         | some i => PyVal.str i
         | none => PyVal.pyNone))
    else do
      let custom_field_name ← dictGet cfg.custom_field_mapping field_name
      let cfn ← asStr custom_field_name
      Except.ok (dictSet acc cfn field_value)
  else do
    let kffVal ← dictGet cfg.custom_field_mapping "key_format_fields"
    let kff ← asDict kffVal
    if dictContains kff field_name then do
      let custom_field_name ← dictGet kff field_name
      let cfn ← asStr custom_field_name
      let v ← transform_field_value field_value "key"
      Except.ok (dictSet acc cfn v)
    else do
      let nffVal ← dictGet cfg.custom_field_mapping "name_format_fields"
      let nff ← asDict nffVal
      if dictContains nff field_name then do
        let custom_field_name ← dictGet nff field_name
        let cfn ← asStr custom_field_name
        let v ← transform_field_value field_value "name"
        Except.ok (dictSet acc cfn v)
      else
        Except.ok (dictSet acc field_name field_value)

/-- `Jira._build_issue_data`: folds `buildStep` over the input field map
and returns the resulting `issue_data['fields']` dict. -/
def build_issue_data (cfg : JiraConfig) (env : JiraEnv) (jira_project : String)
    (fields : PyDict) (exclude_fields : List String) :
    Except PyErr PyDict :=
  fields.foldlM (buildStep cfg env jira_project exclude_fields) []

/-- Python `jira_issue.get('issuetype') == t` (a non-string value never
equals a string under Python `==`). -/
def issuetypeIs (issue : PyDict) (t : String) : Bool :=
  match dictGet? issue "issuetype" with
  | some (PyVal.str s) => s = t
  | _ => false

/-- The wire body of the creation POST in `create_new_jira_issue`:
`_build_issue_data` with `post_creation_update_fields` excluded, then the
`project` field injection, then the epic-link / sub-task-parent branch. -/
def initial_issue_data (cfg : JiraConfig) (env : JiraEnv) (jira_project : String)
    (jira_issue : PyDict) (epic_key parent_key : Option String) :
    Except PyErr PyDict := do
  let base ← build_issue_data cfg env jira_project jira_issue
    cfg.post_creation_update_fields
  let withProject := dictSet base "project"
    (PyVal.dict [("key", PyVal.str jira_project)])
  if truthyOpt epic_key ∧ ¬ issuetypeIs jira_issue "Sub-task" then do
    let epicField ← dictGet cfg.custom_field_mapping "epicLink"
    let epicFieldName ← asStr epicField
    Except.ok (dictSet withProject epicFieldName
      (PyVal.str (epic_key.getD "")))
  else if issuetypeIs jira_issue "Sub-task" ∧ truthyOpt parent_key then
    Except.ok (dictSet withProject "parent"
      (PyVal.dict [("key", PyVal.str (parent_key.getD ""))]))
  else
    Except.ok withProject

/-- `set(jira_issue.keys()) - set(self.post_creation_update_fields)`,
used only for membership tests, so represented as the filtered key list. -/
def fields_set_during_issue_creation (cfg : JiraConfig) (jira_issue : PyDict) :
    List String :=
  (dictKeys jira_issue).filter (fun k => k ∉ cfg.post_creation_update_fields)

/-- The wire body of the post-creation update PUT in
`create_new_jira_issue`: `_build_issue_data` excluding every field that was
already sent during creation. The PUT is issued only when this dict is
non-empty. -/
def update_issue_data (cfg : JiraConfig) (env : JiraEnv) (jira_project : String)
    (jira_issue : PyDict) : Except PyErr PyDict :=
  build_issue_data cfg env jira_project jira_issue
    (fields_set_during_issue_creation cfg jira_issue)

/-- The key-extraction step of `create_new_jira_issue` on the creation
response: `issue_key = response_data['key']` (a `KeyError` when absent),
then `if issue_key: ... else: raise ValueError(...)` (the `ValueError` fires
only for a present-but-falsy key). -/
def extract_issue_key (response_data : PyDict) : Except PyErr PyVal := do
  let issue_key ← dictGet response_data "key"
  if pyTruthy issue_key then Except.ok issue_key
  else Except.error (PyErr.valueError
    "Failed to retrieve issue key from the Jira response")

/-- The request body that `link_jira_issues` POSTs to `issueLink`. -/
def link_jira_issues_data (issue_key : String)
    (issue_parent_key link_type : PyVal) : PyDict :=
  [("type", PyVal.dict [("name", link_type)]),
   ("inwardIssue", PyVal.dict [("key", PyVal.str issue_key)]),
   ("outwardIssue", PyVal.dict [("key", issue_parent_key)])]

/-- The `issuelinks` step at the end of `create_new_jira_issue`, returning
the list of `issueLink` POST bodies it sends.

The source loops `for link in jira_issue['issuelinks']:` assigning
`link_type` and `issue_parent_key`, but the `link_jira_issues` call sits
AFTER the loop, so exactly one link request is sent, built from the last
entry's values; an empty `issuelinks` list leaves the two loop variables
unassigned and the post-loop code raises `NameError`. -/
def issuelinks_calls (jira_issue : PyDict) (issue_key : String) :
    Except PyErr (List PyDict) :=
  if dictContains jira_issue "issuelinks" then do
    let linksVal ← dictGet jira_issue "issuelinks"
    let links ← asList linksVal
    let lastVals ← links.foldlM
      (fun (_ : Option (PyVal × PyVal)) link => do
        let linkD ← asDict link
        let typeVal ← dictGet linkD "type"
        let typeD ← asDict typeVal
        let link_type := (dictGet? typeD "name").getD (PyVal.str "Related")
        let outwardVal ← dictGet linkD "outwardIssue"
        let outwardD ← asDict outwardVal
        let issue_parent_key := (dictGet? outwardD "key").getD (PyVal.str "")
        Except.ok (some (link_type, issue_parent_key)))
      none
    match lastVals with
    | none => Except.error (PyErr.nameError "link_type")
    | some (lt, pk) => Except.ok [link_jira_issues_data issue_key pk lt]
  else
    Except.ok []

/-- An HTTP response as seen by `send_request`: status code, body text, and
the JSON parse of the body (`none` when the body is not valid JSON). -/
structure HttpResponse where
  status : Nat
  text : String
  json : Option PyVal

/-- What `send_request` returns: either a Python value (parsed JSON, or the
`{'response_text': ...}` marker dict), or the raw `requests.Response`
object itself. -/
inductive SendResult where
  | val : PyVal → SendResult
  | responseObj : HttpResponse → SendResult

/-- The response-handling tail of `send_request` after the HTTP call:
`raise_for_status()` (4xx/5xx raise), then — for a non-empty body — return
the parsed JSON, or the `{'response_text': raw}` marker when the body is
not JSON; for an empty body the source executes `response_json = response`
and returns the raw response object. -/
def send_request_result (response : HttpResponse) : Except PyErr SendResult :=
  if 400 ≤ response.status then
    Except.error (PyErr.runtimeError "HTTPError")
  else if response.text ≠ "" then
    match response.json with
    | some j => Except.ok (SendResult.val j)
    | none =>
        Except.ok (SendResult.val
          (PyVal.dict [("response_text", PyVal.str response.text)]))
  else
    Except.ok (SendResult.responseObj response)

/-- A node of the nested epic/issue specification, carrying the keys the
tree walk itself reads: the summary (used here as the node's identity in
creation traces), the issue type, and the optional nested `issues` list
(`none` when the `issues` key is absent from the spec dict). -/
inductive JIssue where
  | mk : String → String → Option (List JIssue) → JIssue

def JIssue.summary : JIssue → String
  | JIssue.mk s _ _ => s

def JIssue.issuetype : JIssue → String
  | JIssue.mk _ t _ => t

def JIssue.children : JIssue → Option (List JIssue)
  | JIssue.mk _ _ c => c

mutual

/-- Creation calls emitted for one issue by `create_list_of_jira_issues`:
the node's own `create_new_jira_issue` call, then (after the optional link
call, which is not a creation) the recursive walk of its nested `issues`. -/
def issueTrace : JIssue → List String
  | JIssue.mk s _ c => s :: childListTrace c

/-- Creation calls emitted for the optional nested `issues` list
(`if 'issues' in issue:` — absent means no recursion). -/
def childListTrace : Option (List JIssue) → List String
  | none => []
  | some issues => create_list_trace issues

/-- `Jira.create_list_of_jira_issues`: iterate the list in order, creating
each issue and recursing into its children before moving to the next. -/
def create_list_trace : List JIssue → List String
  | [] => []
  | i :: rest => issueTrace i ++ create_list_trace rest

end

/-- `Jira.create_epics_and_issues`: iterate the epic list in order,
creating each epic and then walking its nested `issues` list (when
present) before moving to the next epic. -/
def create_epics_trace : List JIssue → List String
  | [] => []
  | e :: rest => issueTrace e ++ create_epics_trace rest

mutual

/-- The strict descendants of a node: every node of its nested `issues`
forest. -/
def properDescendants : JIssue → List JIssue
  | JIssue.mk _ _ c => childForestNodes c

def childForestNodes : Option (List JIssue) → List JIssue
  | none => []
  | some issues => forestNodes issues

/-- All nodes of a forest, in depth-first preorder. -/
def forestNodes : List JIssue → List JIssue
  | [] => []
  | i :: rest => i :: (properDescendants i ++ forestNodes rest)

end

/-- Whether `_build_issue_data` skips a field outright (the three leading
`continue` cases: the structural `issues` key, an excluded field, the
`issuelinks` directive). -/
def skippedField (exclude_fields : List String) (f : String) : Bool :=
  f = "issues" ∨ f ∈ exclude_fields ∨ f = "issuelinks"

/-- Whether a value is a Python dict (`isinstance(field_value, dict)`). -/
def PyVal.isDict : PyVal → Bool
  | PyVal.dict _ => true
  | _ => false

/-- The wire-body key under which a non-skipped field is stored by
`_build_issue_data`, determined by the configuration alone: the field's
own name for key-format / name-format / plain fields, the mapped wire id
for custom fields. `none` when the corresponding branch of the source
would raise before assigning. -/
def pyStr? : PyVal → Option String
  | PyVal.str s => some s
  | _ => none

def pyDict? : PyVal → Option PyDict
  | PyVal.dict d => some d
  | _ => none

def wireKey? (cfg : JiraConfig) (f : String) : Option String :=
  if f ∈ cfg.key_format_fields then some f
  else if f ∈ cfg.name_format_fields then some f
  else if dictContains cfg.custom_field_mapping f then
    (dictGet? cfg.custom_field_mapping f).bind pyStr?
  else
    ((dictGet? cfg.custom_field_mapping "key_format_fields").bind
      pyDict?).bind
      (fun kff =>
        if dictContains kff f then (dictGet? kff f).bind pyStr?
        else
          ((dictGet? cfg.custom_field_mapping "name_format_fields").bind
            pyDict?).bind
            (fun nff =>
              if dictContains nff f then (dictGet? nff f).bind pyStr?
              else some f))

/-- Sanity condition on the configured custom-field mapping: its wire field
ids (the string values, top-level and inside the two nested tables) are
actual field ids, not the structural names `issues` / `issuelinks`. -/
def goodMapping (cfm : PyDict) : Prop :=
  (∀ k s, dictGet? cfm k = some (PyVal.str s) →
    s ≠ "issues" ∧ s ≠ "issuelinks") ∧
  (∀ k d k2 s, dictGet? cfm k = some (PyVal.dict d) →
    dictGet? d k2 = some (PyVal.str s) →
    s ≠ "issues" ∧ s ≠ "issuelinks")

/-- A one-board environment with a single sprint, for exercising C7. -/
def c7Env : JiraEnv :=
  ⟨[("PROJ", "1")], fun _ => ["7"], fun _ => [("Sprint 1", "10")]⟩

/-- A configuration whose `custom_field_mapping` lacks both nested tables,
and one that has only `key_format_fields`. -/
def c10CfgNoNested : JiraConfig := ⟨[], [], [], []⟩

def c10CfgOnlyKff : JiraConfig :=
  ⟨[], [], [("key_format_fields", PyVal.dict [])], []⟩

def c10Env : JiraEnv := ⟨[], fun _ => [], fun _ => []⟩

/-- Configuration and environment for exercising C5. -/
def c5Cfg : JiraConfig :=
  ⟨["assignee"], ["priority"],
   [("key_format_fields", PyVal.dict []),
    ("name_format_fields", PyVal.dict [])], []⟩

def c5Env : JiraEnv := ⟨[], fun _ => [], fun _ => []⟩

def c6Cfg : JiraConfig :=
  ⟨[], [],
   [("story points", PyVal.str "customfield_1"),
    ("key_format_fields", PyVal.dict []),
    ("name_format_fields", PyVal.dict [])], []⟩

def c6Env : JiraEnv := ⟨[], fun _ => [], fun _ => []⟩

def c3Cfg : JiraConfig :=
  ⟨[], [],
   [("key_format_fields", PyVal.dict []),
    ("name_format_fields", PyVal.dict [])],
   ["rank"]⟩

def c3Env : JiraEnv := ⟨[], fun _ => [], fun _ => []⟩

def c4S : JIssue := JIssue.mk "S" "Sub-task" none

def c4I1 : JIssue := JIssue.mk "I1" "Task" (some [c4S])

def c4I2 : JIssue := JIssue.mk "I2" "Task" none

def c4E : JIssue := JIssue.mk "E" "Epic" (some [c4I1, c4I2])

theorem dictGet?_dictSet_self (d : PyDict) (k : String) (v : PyVal) :
    dictGet? (dictSet d k v) k = some v := by
  induction d with
  | nil => simp [dictSet, dictGet?]
  | cons hd t ih =>
      by_cases h : hd.1 = k
      · simp [dictSet, dictGet?, h]
      · simp [dictSet, dictGet?, h, ih]

theorem dictGet?_dictSet_ne (d : PyDict) (k k' : String) (v : PyVal)
    (h : k' ≠ k) : dictGet? (dictSet d k v) k' = dictGet? d k' := by
  have h' : k ≠ k' := fun e => h e.symm
  induction d with
  | nil => simp [dictSet, dictGet?, h']
  | cons hd t ih =>
      by_cases hh : hd.1 = k
      · simp [dictSet, dictGet?, hh, h']
      · simp [dictSet, dictGet?, hh, ih]

theorem dictContains_dictSet (d : PyDict) (k k' : String) (v : PyVal) :
    dictContains (dictSet d k v) k' = true ↔
      (k' = k ∨ dictContains d k' = true) := by
  by_cases h : k' = k
  · subst h
    simp [dictContains, dictGet?_dictSet_self]
  · simp [dictContains, dictGet?_dictSet_ne d k k' v h, h]

theorem transform_field_value_not_dict (v : PyVal) (kt : String)
    (h : v.isDict = false) :
    transform_field_value v kt = Except.ok (PyVal.dict [(kt, v)]) := by
  cases v <;> simp_all [PyVal.isDict, transform_field_value]

theorem skippedField_true_iff (ex : List String) (g : String) :
    skippedField ex g = true ↔ (g = "issues" ∨ g ∈ ex ∨ g = "issuelinks") := by
  simp [skippedField]

theorem skippedField_false_iff (ex : List String) (g : String) :
    skippedField ex g = false ↔ (g ≠ "issues" ∧ g ∉ ex ∧ g ≠ "issuelinks") := by
  simp [skippedField]

@[simp]
theorem pyBind_ok {α β : Type} (a : α) (f : α → Except PyErr β) :
    (Except.ok a >>= f) = f a := rfl

@[simp]
theorem pyBind_err {α β : Type} (e : PyErr) (f : α → Except PyErr β) :
    ((Except.error e : Except PyErr α) >>= f) = Except.error e := rfl

theorem asStr_ok_iff (u : PyVal) (s : String) :
    asStr u = Except.ok s ↔ u = PyVal.str s := by
  cases u <;> simp [asStr]

theorem asDict_ok_iff (u : PyVal) (d : PyDict) :
    asDict u = Except.ok d ↔ u = PyVal.dict d := by
  cases u <;> simp [asDict]

theorem asList_ok_iff (u : PyVal) (xs : List PyVal) :
    asList u = Except.ok xs ↔ u = PyVal.list xs := by
  cases u <;> simp [asList]

theorem dictGet_ok_iff (d : PyDict) (k : String) (u : PyVal) :
    dictGet d k = Except.ok u ↔ dictGet? d k = some u := by
  unfold dictGet
  cases dictGet? d k <;> simp

theorem dictGet_error_iff (d : PyDict) (k : String) (e : PyErr) :
    dictGet d k = Except.error e ↔
      (dictGet? d k = none ∧ e = PyErr.keyError k) := by
  unfold dictGet
  cases dictGet? d k <;> simp [eq_comm]

/-- Every successful `buildStep` either skips its field (leaving the
accumulated wire dict untouched) or writes exactly one binding, at the key
computed by `wireKey?`. -/
theorem buildStep_ok_cases (cfg : JiraConfig) (env : JiraEnv) (p : String)
    (ex : List String) (acc : PyDict) (g : String) (w : PyVal) (acc' : PyDict)
    (hok : buildStep cfg env p ex acc (g, w) = Except.ok acc') :
    (skippedField ex g = true ∧ acc' = acc) ∨
    (skippedField ex g = false ∧
      ∃ wk val, wireKey? cfg g = some wk ∧ acc' = dictSet acc wk val) := by
  by_cases h1 : g = "issues"
  · have hred : buildStep cfg env p ex acc (g, w) = Except.ok acc := by
      simp [buildStep, h1]
    rw [hred] at hok
    injection hok with h
    exact Or.inl ⟨(skippedField_true_iff ex g).mpr (Or.inl h1), h.symm⟩
  by_cases h2 : g ∈ ex
  · have hred : buildStep cfg env p ex acc (g, w) = Except.ok acc := by
      simp [buildStep, h1, h2]
    rw [hred] at hok
    injection hok with h
    exact Or.inl ⟨(skippedField_true_iff ex g).mpr (Or.inr (Or.inl h2)), h.symm⟩
  by_cases h3 : g = "issuelinks"
  · have hred : buildStep cfg env p ex acc (g, w) = Except.ok acc := by
      simp [buildStep, h1, h2, h3]
    rw [hred] at hok
    injection hok with h
    exact Or.inl ⟨(skippedField_true_iff ex g).mpr (Or.inr (Or.inr h3)), h.symm⟩
  have hsk : skippedField ex g = false :=
    (skippedField_false_iff ex g).mpr ⟨h1, h2, h3⟩
  refine Or.inr ⟨hsk, ?_⟩
  by_cases h4 : g ∈ cfg.key_format_fields
  · cases htv : transform_field_value w "key" with
    | error e =>
        have hred : buildStep cfg env p ex acc (g, w) = Except.error e := by
          simp [buildStep, h1, h2, h3, h4, htv]
        rw [hred] at hok
        simp at hok
    | ok tv =>
        have hred : buildStep cfg env p ex acc (g, w) =
            Except.ok (dictSet acc g tv) := by
          simp [buildStep, h1, h2, h3, h4, htv]
        rw [hred] at hok
        injection hok with h
        exact ⟨g, tv, by simp [wireKey?, pyStr?, pyDict?, h4], h.symm⟩
  by_cases h5 : g ∈ cfg.name_format_fields
  · cases htv : transform_field_value w "name" with
    | error e =>
        have hred : buildStep cfg env p ex acc (g, w) = Except.error e := by
          simp [buildStep, h1, h2, h3, h4, h5, htv]
        rw [hred] at hok
        simp at hok
    | ok tv =>
        have hred : buildStep cfg env p ex acc (g, w) =
            Except.ok (dictSet acc g tv) := by
          simp [buildStep, h1, h2, h3, h4, h5, htv]
        rw [hred] at hok
        injection hok with h
        exact ⟨g, tv, by simp [wireKey?, pyStr?, pyDict?, h4, h5], h.symm⟩
  by_cases h6 : dictContains cfg.custom_field_mapping g = true
  · cases hmg : dictGet cfg.custom_field_mapping g with
    | error e =>
        rw [dictGet_error_iff] at hmg
        simp [dictContains, hmg.1] at h6
    | ok u =>
        have hmg' : dictGet? cfg.custom_field_mapping g = some u :=
          (dictGet_ok_iff _ _ _).mp hmg
        by_cases hspr : g = "sprint"
        · subst hspr
          cases hb : get_board_id_by_project_key env p with
          | error e =>
              have hred : buildStep cfg env p ex acc ("sprint", w) =
                  Except.error e := by
                simp [buildStep, h1, h2, h3, h4, h5, h6, hb]
              rw [hred] at hok
              simp at hok
          | ok b =>
              cases hau : asStr u with
              | error e =>
                  have hred : buildStep cfg env p ex acc ("sprint", w) =
                      Except.error e := by
                    simp [buildStep, h1, h2, h3, h4, h5, h6, hb, hmg, hau]
                  rw [hred] at hok
                  simp at hok
              | ok s =>
                  have hus : u = PyVal.str s := (asStr_ok_iff u s).mp hau
                  subst hus
                  have hred : buildStep cfg env p ex acc ("sprint", w) =
                      Except.ok (dictSet acc s
                        (match sprintLookupVal env b w with
                         | some i => PyVal.str i
                         | none => PyVal.pyNone)) := by
                    simp [buildStep, h1, h2, h3, h4, h5, h6, hb, hmg, asStr]
                  rw [hred] at hok
                  injection hok with h
                  refine ⟨s, _, ?_, h.symm⟩
                  simp [wireKey?, pyStr?, pyDict?, h4, h5, h6, hmg']
        · cases hau : asStr u with
          | error e =>
              have hred : buildStep cfg env p ex acc (g, w) =
                  Except.error e := by
                simp [buildStep, h1, h2, h3, h4, h5, h6, hspr, hmg, hau]
              rw [hred] at hok
              simp at hok
          | ok s =>
              have hus : u = PyVal.str s := (asStr_ok_iff u s).mp hau
              subst hus
              have hred : buildStep cfg env p ex acc (g, w) =
                  Except.ok (dictSet acc s w) := by
                simp [buildStep, h1, h2, h3, h4, h5, h6, hspr, hmg, asStr]
              rw [hred] at hok
              injection hok with h
              exact ⟨s, w, by simp [wireKey?, pyStr?, pyDict?, h4, h5, h6, hmg'], h.symm⟩
  · cases hkv : dictGet cfg.custom_field_mapping "key_format_fields" with
    | error e =>
        have hred : buildStep cfg env p ex acc (g, w) = Except.error e := by
          simp [buildStep, h1, h2, h3, h4, h5, h6, hkv]
        rw [hred] at hok
        simp at hok
    | ok u =>
        have hkv' : dictGet? cfg.custom_field_mapping "key_format_fields" =
            some u := (dictGet_ok_iff _ _ _).mp hkv
        cases had : asDict u with
        | error e =>
            have hred : buildStep cfg env p ex acc (g, w) = Except.error e := by
              simp [buildStep, h1, h2, h3, h4, h5, h6, hkv, had]
            rw [hred] at hok
            simp at hok
        | ok kff =>
            have hud : u = PyVal.dict kff := (asDict_ok_iff u kff).mp had
            subst hud
            by_cases h7 : dictContains kff g = true
            · cases hg : dictGet kff g with
              | error e =>
                  rw [dictGet_error_iff] at hg
                  simp [dictContains, hg.1] at h7
              | ok u' =>
                  have hg' : dictGet? kff g = some u' :=
                    (dictGet_ok_iff _ _ _).mp hg
                  cases hau : asStr u' with
                  | error e =>
                      have hred : buildStep cfg env p ex acc (g, w) =
                          Except.error e := by
                        simp [buildStep, h1, h2, h3, h4, h5, h6, hkv, asDict,
                          h7, hg, hau]
                      rw [hred] at hok
                      simp at hok
                  | ok s =>
                      have hus : u' = PyVal.str s := (asStr_ok_iff u' s).mp hau
                      subst hus
                      cases htv : transform_field_value w "key" with
                      | error e =>
                          have hred : buildStep cfg env p ex acc (g, w) =
                              Except.error e := by
                            simp [buildStep, h1, h2, h3, h4, h5, h6, hkv,
                              asDict, h7, hg, asStr, htv]
                          rw [hred] at hok
                          simp at hok
                      | ok tv =>
                          have hred : buildStep cfg env p ex acc (g, w) =
                              Except.ok (dictSet acc s tv) := by
                            simp [buildStep, h1, h2, h3, h4, h5, h6, hkv,
                              asDict, h7, hg, asStr, htv]
                          rw [hred] at hok
                          injection hok with h
                          refine ⟨s, tv, ?_, h.symm⟩
                          simp [wireKey?, pyStr?, pyDict?, h4, h5, h6, hkv', h7, hg']
            · cases hnv : dictGet cfg.custom_field_mapping "name_format_fields" with
              | error e =>
                  have hred : buildStep cfg env p ex acc (g, w) =
                      Except.error e := by
                    simp [buildStep, h1, h2, h3, h4, h5, h6, hkv, asDict, h7, hnv]
                  rw [hred] at hok
                  simp at hok
              | ok u2 =>
                  have hnv' : dictGet? cfg.custom_field_mapping
                      "name_format_fields" = some u2 :=
                    (dictGet_ok_iff _ _ _).mp hnv
                  cases had2 : asDict u2 with
                  | error e =>
                      have hred : buildStep cfg env p ex acc (g, w) =
                          Except.error e := by
                        simp [buildStep, h1, h2, h3, h4, h5, h6, hkv, had,
                          h7, hnv, had2]
                      rw [hred] at hok
                      simp at hok
                  | ok nff =>
                      have hud2 : u2 = PyVal.dict nff :=
                        (asDict_ok_iff u2 nff).mp had2
                      subst hud2
                      by_cases h8 : dictContains nff g = true
                      · cases hg : dictGet nff g with
                        | error e =>
                            rw [dictGet_error_iff] at hg
                            simp [dictContains, hg.1] at h8
                        | ok u' =>
                            have hg' : dictGet? nff g = some u' :=
                              (dictGet_ok_iff _ _ _).mp hg
                            cases hau : asStr u' with
                            | error e =>
                                have hred : buildStep cfg env p ex acc (g, w) =
                                    Except.error e := by
                                  simp [buildStep, h1, h2, h3, h4, h5, h6, hkv,
                                    asDict, h7, hnv, h8, hg, hau]
                                rw [hred] at hok
                                simp at hok
                            | ok s =>
                                have hus : u' = PyVal.str s :=
                                  (asStr_ok_iff u' s).mp hau
                                subst hus
                                cases htv : transform_field_value w "name" with
                                | error e =>
                                    have hred : buildStep cfg env p ex acc (g, w) =
                                        Except.error e := by
                                      simp [buildStep, h1, h2, h3, h4, h5, h6,
                                        hkv, asDict, h7, hnv, h8, hg, asStr, htv]
                                    rw [hred] at hok
                                    simp at hok
                                | ok tv =>
                                    have hred : buildStep cfg env p ex acc (g, w) =
                                        Except.ok (dictSet acc s tv) := by
                                      simp [buildStep, h1, h2, h3, h4, h5, h6,
                                        hkv, asDict, h7, hnv, h8, hg, asStr, htv]
                                    rw [hred] at hok
                                    injection hok with h
                                    refine ⟨s, tv, ?_, h.symm⟩
                                    simp [wireKey?, pyStr?, pyDict?, h4, h5, h6, hkv', h7, hnv',
                                      h8, hg']
                      · have hred : buildStep cfg env p ex acc (g, w) =
                            Except.ok (dictSet acc g w) := by
                          simp [buildStep, h1, h2, h3, h4, h5, h6, hkv, asDict,
                            h7, hnv, h8]
                        rw [hred] at hok
                        injection hok with h
                        refine ⟨g, w, ?_, h.symm⟩
                        simp [wireKey?, pyStr?, pyDict?, h4, h5, h6, hkv', h7, hnv', h8]


/-- `_build_issue_data` never removes a key from the accumulated dict. -/
theorem build_go_mono (cfg : JiraConfig) (env : JiraEnv) (p : String)
    (ex : List String) (fields : PyDict) (acc body : PyDict) (k : String)
    (hok : fields.foldlM (buildStep cfg env p ex) acc = Except.ok body)
    (hmem : dictContains acc k = true) : dictContains body k = true := by
  induction fields generalizing acc with
  | nil =>
      simp only [List.foldlM_nil] at hok
      injection hok with h
      exact h ▸ hmem
  | cons hd t ih =>
      obtain ⟨g0, w0⟩ := hd
      rw [List.foldlM_cons] at hok
      cases hstep : buildStep cfg env p ex acc (g0, w0) with
      | error e => rw [hstep] at hok; simp at hok
      | ok acc1 =>
          rw [hstep, pyBind_ok] at hok
          rcases buildStep_ok_cases cfg env p ex acc g0 w0 acc1 hstep with
            ⟨_, rfl⟩ | ⟨_, wk, val, _, rfl⟩
          · exact ih _ hok hmem
          · exact ih _ hok ((dictContains_dictSet acc wk k val).mpr (Or.inr hmem))

/-- A key that no field of the input writes keeps its value through
`_build_issue_data`. -/
theorem build_go_get_preserved (cfg : JiraConfig) (env : JiraEnv) (p : String)
    (ex : List String) (fields : PyDict) (acc body : PyDict) (k : String)
    (hok : fields.foldlM (buildStep cfg env p ex) acc = Except.ok body)
    (hno : ∀ g w, (g, w) ∈ fields →
      skippedField ex g = true ∨ wireKey? cfg g ≠ some k) :
    dictGet? body k = dictGet? acc k := by
  induction fields generalizing acc with
  | nil =>
      simp only [List.foldlM_nil] at hok
      injection hok with h
      exact h ▸ rfl
  | cons hd t ih =>
      obtain ⟨g0, w0⟩ := hd
      rw [List.foldlM_cons] at hok
      cases hstep : buildStep cfg env p ex acc (g0, w0) with
      | error e => rw [hstep] at hok; simp at hok
      | ok acc1 =>
          rw [hstep, pyBind_ok] at hok
          rcases buildStep_ok_cases cfg env p ex acc g0 w0 acc1 hstep with
            ⟨_, rfl⟩ | ⟨hns, wk, val, hwk, rfl⟩
          · exact ih _ hok
              (fun g w hm => hno g w (List.mem_cons_of_mem (g0, w0) hm))
          · have hkwk : k ≠ wk := by
              rcases hno g0 w0 (List.mem_cons_self (g0, w0) t) with hsk | hne
              · rw [hsk] at hns; exact absurd hns (by simp)
              · intro he; exact hne (he ▸ hwk)
            rw [ih _ hok
              (fun g w hm => hno g w (List.mem_cons_of_mem (g0, w0) hm))]
            exact dictGet?_dictSet_ne acc wk k val hkwk

/-- A non-skipped input field forces its wire key to be present in the
`_build_issue_data` result. -/
theorem build_go_mem_of_field (cfg : JiraConfig) (env : JiraEnv) (p : String)
    (ex : List String) (fields : PyDict) (acc body : PyDict)
    (f : String) (v : PyVal) (wk : String)
    (hok : fields.foldlM (buildStep cfg env p ex) acc = Except.ok body)
    (hmem : (f, v) ∈ fields)
    (hns : skippedField ex f = false)
    (hwk : wireKey? cfg f = some wk) :
    dictContains body wk = true := by
  induction fields generalizing acc with
  | nil => cases hmem
  | cons hd t ih =>
      obtain ⟨g0, w0⟩ := hd
      rw [List.foldlM_cons] at hok
      cases hstep : buildStep cfg env p ex acc (g0, w0) with
      | error e => rw [hstep] at hok; simp at hok
      | ok acc1 =>
          rw [hstep, pyBind_ok] at hok
          rcases List.mem_cons.mp hmem with heq | htail
          · rw [Prod.mk.injEq] at heq
            obtain ⟨hf, hv⟩ := heq
            subst hf
            subst hv
            rcases buildStep_ok_cases cfg env p ex acc f v acc1 hstep with
              ⟨hsk, rfl⟩ | ⟨_, wk', val, hwk', rfl⟩
            · rw [hsk] at hns; exact absurd hns (by simp)
            · rw [hwk] at hwk'
              have hww : wk = wk' := Option.some.inj hwk'
              subst hww
              exact build_go_mono cfg env p ex t _ body wk hok
                ((dictContains_dictSet acc wk wk val).mpr (Or.inl rfl))
          · exact ih _ hok htail

/-- Every key of the `_build_issue_data` result is either a key of the
initial accumulator or the wire key of some non-skipped input field. -/
theorem build_go_keys (cfg : JiraConfig) (env : JiraEnv) (p : String)
    (ex : List String) (fields : PyDict) (acc body : PyDict) (k : String)
    (hok : fields.foldlM (buildStep cfg env p ex) acc = Except.ok body)
    (hk : dictContains body k = true) :
    dictContains acc k = true ∨
      ∃ g w, (g, w) ∈ fields ∧ skippedField ex g = false ∧
        wireKey? cfg g = some k := by
  induction fields generalizing acc with
  | nil =>
      simp only [List.foldlM_nil] at hok
      injection hok with h
      exact Or.inl (h ▸ hk)
  | cons hd t ih =>
      obtain ⟨g0, w0⟩ := hd
      rw [List.foldlM_cons] at hok
      cases hstep : buildStep cfg env p ex acc (g0, w0) with
      | error e => rw [hstep] at hok; simp at hok
      | ok acc1 =>
          rw [hstep, pyBind_ok] at hok
          rcases buildStep_ok_cases cfg env p ex acc g0 w0 acc1 hstep with
            ⟨_, rfl⟩ | ⟨hns, wk, val, hwk, rfl⟩
          · rcases ih _ hok with hacc | ⟨g, w, hm, hgs, hgw⟩
            · exact Or.inl hacc
            · exact Or.inr ⟨g, w, List.mem_cons_of_mem (g0, w0) hm, hgs, hgw⟩
          · rcases ih _ hok with hacc | ⟨g, w, hm, hgs, hgw⟩
            · rcases (dictContains_dictSet acc wk k val).mp hacc with rfl | hacc'
              · exact Or.inr ⟨g0, w0, List.mem_cons_self (g0, w0) t, hns, hwk⟩
              · exact Or.inl hacc'
            · exact Or.inr ⟨g, w, List.mem_cons_of_mem (g0, w0) hm, hgs, hgw⟩

theorem dictKeys_cons (g : String) (w : PyVal) (t : PyDict) :
    dictKeys ((g, w) :: t) = g :: dictKeys t := rfl

/-- A non-skipped key-format field with a scalar (non-dict) value is stored
under its own name as `{'key': value}`. -/
theorem buildStep_key_format (cfg : JiraConfig) (env : JiraEnv) (p : String)
    (ex : List String) (acc : PyDict) (f : String) (v : PyVal)
    (hns : skippedField ex f = false) (h4 : f ∈ cfg.key_format_fields)
    (hv : v.isDict = false) :
    buildStep cfg env p ex acc (f, v) =
      Except.ok (dictSet acc f (PyVal.dict [("key", v)])) := by
  obtain ⟨h1, h2, h3⟩ := (skippedField_false_iff ex f).mp hns
  simp [buildStep, h1, h2, h3, h4, transform_field_value_not_dict v "key" hv]

/-- A non-skipped name-format field (not key-format) with a scalar value is
stored under its own name as `{'name': value}`. -/
theorem buildStep_name_format (cfg : JiraConfig) (env : JiraEnv) (p : String)
    (ex : List String) (acc : PyDict) (f : String) (v : PyVal)
    (hns : skippedField ex f = false) (h4 : f ∉ cfg.key_format_fields)
    (h5 : f ∈ cfg.name_format_fields) (hv : v.isDict = false) :
    buildStep cfg env p ex acc (f, v) =
      Except.ok (dictSet acc f (PyVal.dict [("name", v)])) := by
  obtain ⟨h1, h2, h3⟩ := (skippedField_false_iff ex f).mp hns
  simp [buildStep, h1, h2, h3, h4, h5,
    transform_field_value_not_dict v "name" hv]

/-- If some field's step always writes `(wk, V)` and no other field writes
`wk`, the final wire dict holds exactly `V` at `wk`. -/
theorem build_go_get_value (cfg : JiraConfig) (env : JiraEnv) (p : String)
    (ex : List String) (fields : PyDict) (f : String) (v : PyVal)
    (wk : String) (V : PyVal)
    (hstep_val : ∀ acc, buildStep cfg env p ex acc (f, v) =
      Except.ok (dictSet acc wk V))
    (hnodup : (dictKeys fields).Nodup)
    (hmem : (f, v) ∈ fields)
    (hno : ∀ g w, (g, w) ∈ fields → g ≠ f →
      skippedField ex g = true ∨ wireKey? cfg g ≠ some wk)
    (acc0 body : PyDict)
    (hok : fields.foldlM (buildStep cfg env p ex) acc0 = Except.ok body) :
    dictGet? body wk = some V := by
  induction fields generalizing acc0 with
  | nil => cases hmem
  | cons hd t ih =>
      obtain ⟨g0, w0⟩ := hd
      rw [List.foldlM_cons] at hok
      rcases List.mem_cons.mp hmem with heq | htail
      · rw [Prod.mk.injEq] at heq
        obtain ⟨hf, hw⟩ := heq
        subst hf
        subst hw
        rw [hstep_val acc0, pyBind_ok] at hok
        have hfk : f ∉ dictKeys t := by
          rw [dictKeys_cons] at hnodup
          exact (List.nodup_cons.mp hnodup).1
        rw [build_go_get_preserved cfg env p ex t _ body wk hok ?_]
        · exact dictGet?_dictSet_self acc0 wk V
        · intro g w hm
          refine hno g w (List.mem_cons_of_mem (f, v) hm) ?_
          intro he
          exact hfk (he ▸ List.mem_map_of_mem Prod.fst hm)
      · cases hstep : buildStep cfg env p ex acc0 (g0, w0) with
        | error e => rw [hstep] at hok; simp at hok
        | ok acc1 =>
            rw [hstep, pyBind_ok] at hok
            rw [dictKeys_cons] at hnodup
            exact ih (List.nodup_cons.mp hnodup).2 htail
              (fun g w hm => hno g w (List.mem_cons_of_mem (g0, w0) hm)) _ hok

theorem mem_fields_set_during (cfg : JiraConfig) (issue : PyDict) (k : String) :
    k ∈ fields_set_during_issue_creation cfg issue ↔
      (k ∈ dictKeys issue ∧ k ∉ cfg.post_creation_update_fields) := by
  simp [fields_set_during_issue_creation, List.mem_filter]

/-- The grand shape of a successful creation POST body: the translated base
dict, the `project` injection, and at most one of the epic-link or
sub-task-parent injections. -/
theorem initial_issue_data_ok_cases (cfg : JiraConfig) (env : JiraEnv)
    (p : String) (issue : PyDict) (ek pk : Option String) (ib : PyDict)
    (hok : initial_issue_data cfg env p issue ek pk = Except.ok ib) :
    ∃ base,
      build_issue_data cfg env p issue cfg.post_creation_update_fields =
        Except.ok base ∧
      (ib = dictSet base "project" (PyVal.dict [("key", PyVal.str p)]) ∨
       (∃ el, dictGet? cfg.custom_field_mapping "epicLink" =
          some (PyVal.str el) ∧
         ib = dictSet (dictSet base "project"
            (PyVal.dict [("key", PyVal.str p)])) el
            (PyVal.str (ek.getD ""))) ∨
       ib = dictSet (dictSet base "project"
          (PyVal.dict [("key", PyVal.str p)])) "parent"
          (PyVal.dict [("key", PyVal.str (pk.getD ""))])) := by
  cases hb : build_issue_data cfg env p issue cfg.post_creation_update_fields with
  | error e =>
      rw [initial_issue_data, hb] at hok
      simp at hok
  | ok base =>
      refine ⟨base, rfl, ?_⟩
      rw [initial_issue_data, hb, pyBind_ok] at hok
      by_cases hc1 : truthyOpt ek = true ∧ ¬ issuetypeIs issue "Sub-task" = true
      · rw [if_pos hc1] at hok
        cases hel : dictGet cfg.custom_field_mapping "epicLink" with
        | error e => rw [hel] at hok; simp at hok
        | ok u =>
            rw [hel, pyBind_ok] at hok
            cases hau : asStr u with
            | error e => rw [hau] at hok; simp at hok
            | ok el =>
                rw [hau, pyBind_ok] at hok
                injection hok with h
                refine Or.inr (Or.inl ⟨el, ?_, h.symm⟩)
                have := (dictGet_ok_iff _ _ _).mp hel
                rw [(asStr_ok_iff u el).mp hau] at this
                exact this
      · rw [if_neg hc1] at hok
        by_cases hc2 : issuetypeIs issue "Sub-task" = true ∧ truthyOpt pk = true
        · rw [if_pos hc2] at hok
          injection hok with h
          exact Or.inr (Or.inr h.symm)
        · rw [if_neg hc2] at hok
          injection hok with h
          exact Or.inl h.symm

/-- On a name-duplicate-free sprint list, the linear scan finds exactly the
member carrying the requested name. -/
theorem find_first_by_name (l : List (String × String)) (name sid : String)
    (hnd : (l.map Prod.fst).Nodup) (hmem : (name, sid) ∈ l) :
    l.find? (fun s => s.1 = name) = some (name, sid) := by
  induction l with
  | nil => cases hmem
  | cons hd t ih =>
      rcases List.mem_cons.mp hmem with heq | hm
      · rw [← heq]
        simp
      · have hh : hd.1 ≠ name := by
          intro he
          rw [List.map_cons] at hnd
          exact (List.nodup_cons.mp hnd).1
            (he ▸ List.mem_map_of_mem Prod.fst hm)
      -- find? skips the head and the tail is still duplicate-free
        rw [List.find?_cons_of_neg _ (by simp [hh])]
        rw [List.map_cons] at hnd
        exact ih (List.nodup_cons.mp hnd).2 hm

/-- C7: sprint lookup returns the matching sprint's id on an exact
(case-sensitive) name match, and returns `none` — an absent value, not an
error — when no sprint of the board matches. -/
theorem C7_sprint_lookup :
    (∀ (env : JiraEnv) (board_id name sid : String),
      ((env.sprints board_id).map Prod.fst).Nodup →
      (name, sid) ∈ env.sprints board_id →
      get_sprint_id env board_id name = some sid) ∧
    (∀ (env : JiraEnv) (board_id name : String),
      (∀ s ∈ env.sprints board_id, s.1 ≠ name) →
      get_sprint_id env board_id name = none) := by
  constructor
  · intro env board_id name sid hnd hmem
    unfold get_sprint_id
    rw [find_first_by_name (env.sprints board_id) name sid hnd hmem]
  · intro env board_id name hno
    unfold get_sprint_id
    rw [List.find?_eq_none.mpr ?_]
    intro s hs
    simp [hno s hs]

theorem C7_sprint_lookup_witness :
    get_sprint_id c7Env "7" "Sprint 1" = some "10" ∧
    get_sprint_id c7Env "7" "Sprint 9" = none :=
  ⟨C7_sprint_lookup.1 c7Env "7" "Sprint 1" "10" (by simp [c7Env])
      (by simp [c7Env]),
   C7_sprint_lookup.2 c7Env "7" "Sprint 9" (by simp [c7Env])⟩

/-- C10: a field matching none of the earlier rules reaches the
unconditional `custom_field_mapping['key_format_fields']` lookup (and then
the `['name_format_fields']` lookup), so a configuration lacking the nested
mapping makes translation of such a field raise `KeyError` instead of
copying the field verbatim. -/
theorem C10_missing_nested_mapping :
    (∀ (cfg : JiraConfig) (env : JiraEnv) (p : String) (ex : List String)
       (f : String) (v : PyVal),
      skippedField ex f = false →
      f ∉ cfg.key_format_fields →
      f ∉ cfg.name_format_fields →
      dictContains cfg.custom_field_mapping f = false →
      dictGet? cfg.custom_field_mapping "key_format_fields" = none →
      build_issue_data cfg env p [(f, v)] ex =
        Except.error (PyErr.keyError "key_format_fields")) ∧
    (∀ (cfg : JiraConfig) (env : JiraEnv) (p : String) (ex : List String)
       (f : String) (v : PyVal) (kff : PyDict),
      skippedField ex f = false →
      f ∉ cfg.key_format_fields →
      f ∉ cfg.name_format_fields →
      dictContains cfg.custom_field_mapping f = false →
      dictGet? cfg.custom_field_mapping "key_format_fields" =
        some (PyVal.dict kff) →
      dictContains kff f = false →
      dictGet? cfg.custom_field_mapping "name_format_fields" = none →
      build_issue_data cfg env p [(f, v)] ex =
        Except.error (PyErr.keyError "name_format_fields")) := by
  constructor
  · intro cfg env p ex f v hns h4 h5 h6 hkv
    obtain ⟨h1, h2, h3⟩ := (skippedField_false_iff ex f).mp hns
    simp [build_issue_data, buildStep, h1, h2, h3, h4, h5, h6, dictGet, hkv]
  · intro cfg env p ex f v kff hns h4 h5 h6 hkv h7 hnv
    obtain ⟨h1, h2, h3⟩ := (skippedField_false_iff ex f).mp hns
    simp [build_issue_data, buildStep, h1, h2, h3, h4, h5, h6, dictGet, hkv,
      asDict, h7, hnv]

theorem C10_missing_nested_mapping_witness :
    build_issue_data c10CfgNoNested c10Env "P"
      [("description", PyVal.str "d")] [] =
      Except.error (PyErr.keyError "key_format_fields") ∧
    build_issue_data c10CfgOnlyKff c10Env "P"
      [("description", PyVal.str "d")] [] =
      Except.error (PyErr.keyError "name_format_fields") :=
  ⟨C10_missing_nested_mapping.1 c10CfgNoNested c10Env "P" []
      "description" (PyVal.str "d") (by simp [skippedField])
      (by simp [c10CfgNoNested]) (by simp [c10CfgNoNested]) rfl rfl,
   C10_missing_nested_mapping.2 c10CfgOnlyKff c10Env "P" []
      "description" (PyVal.str "d") [] (by simp [skippedField])
      (by simp [c10CfgOnlyKff]) (by simp [c10CfgOnlyKff]) rfl rfl rfl rfl⟩

/-- C5: translating a scalar (non-dict) value of a key-format field stores
`{'key': value}` under the field's own name; for a name-format field (not
also key-format, which takes precedence) it stores `{'name': value}`. -/
theorem C5_scalar_key_name_format :
    (∀ (cfg : JiraConfig) (env : JiraEnv) (p : String) (ex : List String)
       (fields : PyDict) (f : String) (v : PyVal) (body : PyDict),
      (dictKeys fields).Nodup →
      (f, v) ∈ fields →
      skippedField ex f = false →
      f ∈ cfg.key_format_fields →
      v.isDict = false →
      (∀ g w, (g, w) ∈ fields → g ≠ f → wireKey? cfg g ≠ some f) →
      build_issue_data cfg env p fields ex = Except.ok body →
      dictGet? body f = some (PyVal.dict [("key", v)])) ∧
    (∀ (cfg : JiraConfig) (env : JiraEnv) (p : String) (ex : List String)
       (fields : PyDict) (f : String) (v : PyVal) (body : PyDict),
      (dictKeys fields).Nodup →
      (f, v) ∈ fields →
      skippedField ex f = false →
      f ∉ cfg.key_format_fields →
      f ∈ cfg.name_format_fields →
      v.isDict = false →
      (∀ g w, (g, w) ∈ fields → g ≠ f → wireKey? cfg g ≠ some f) →
      build_issue_data cfg env p fields ex = Except.ok body →
      dictGet? body f = some (PyVal.dict [("name", v)])) := by
  constructor
  · intro cfg env p ex fields f v body hnd hmem hns h4 hv hno hok
    exact build_go_get_value cfg env p ex fields f v f
      (PyVal.dict [("key", v)])
      (fun acc => buildStep_key_format cfg env p ex acc f v hns h4 hv)
      hnd hmem (fun g w hm hne => Or.inr (hno g w hm hne)) [] body hok
  · intro cfg env p ex fields f v body hnd hmem hns h4 h5 hv hno hok
    exact build_go_get_value cfg env p ex fields f v f
      (PyVal.dict [("name", v)])
      (fun acc => buildStep_name_format cfg env p ex acc f v hns h4 h5 hv)
      hnd hmem (fun g w hm hne => Or.inr (hno g w hm hne)) [] body hok

theorem C5_scalar_key_name_format_witness :
    dictGet? [("priority", PyVal.dict [("key", PyVal.str "High")])]
      "priority" = some (PyVal.dict [("key", PyVal.str "High")]) ∧
    dictGet? [("assignee", PyVal.dict [("name", PyVal.str "bob")])]
      "assignee" = some (PyVal.dict [("name", PyVal.str "bob")]) :=
  ⟨C5_scalar_key_name_format.1 c5Cfg c5Env "P" []
      [("priority", PyVal.str "High")] "priority" (PyVal.str "High")
      [("priority", PyVal.dict [("key", PyVal.str "High")])]
      (by simp [dictKeys]) (by simp) (by simp [skippedField])
      (by simp [c5Cfg]) rfl
      (by
        intro g w hm hne
        simp at hm
        exact absurd hm.1 hne)
      rfl,
   C5_scalar_key_name_format.2 c5Cfg c5Env "P" []
      [("assignee", PyVal.str "bob")] "assignee" (PyVal.str "bob")
      [("assignee", PyVal.dict [("name", PyVal.str "bob")])]
      (by simp [dictKeys]) (by simp) (by simp [skippedField])
      (by simp [c5Cfg]) (by simp [c5Cfg]) rfl
      (by
        intro g w hm hne
        simp at hm
        exact absurd hm.1 hne)
      rfl⟩

/-- Under `goodMapping`, a wire key is either the field's own name or a
mapped id distinct from `issues`/`issuelinks`. -/
theorem pyStr?_eq_some (u : PyVal) (s : String) :
    pyStr? u = some s ↔ u = PyVal.str s := by
  cases u <;> simp [pyStr?]

theorem pyDict?_eq_some (u : PyVal) (d : PyDict) :
    pyDict? u = some d ↔ u = PyVal.dict d := by
  cases u <;> simp [pyDict?]

theorem wireKey_good (cfg : JiraConfig) (g wk : String)
    (hgm : goodMapping cfg.custom_field_mapping)
    (hwk : wireKey? cfg g = some wk) :
    wk = g ∨ (wk ≠ "issues" ∧ wk ≠ "issuelinks") := by
  unfold wireKey? at hwk
  split_ifs at hwk with h4 h5 h6
  · exact Or.inl (Option.some.inj hwk).symm
  · exact Or.inl (Option.some.inj hwk).symm
  · rcases Option.bind_eq_some.mp hwk with ⟨u, hm, hs⟩
    rw [(pyStr?_eq_some u wk).mp hs] at hm
    exact Or.inr (hgm.1 g wk hm)
  · rcases Option.bind_eq_some.mp hwk with ⟨kff, hk1, hk2⟩
    rcases Option.bind_eq_some.mp hk1 with ⟨u, hkv, hpd⟩
    rw [(pyDict?_eq_some u kff).mp hpd] at hkv
    by_cases h7 : dictContains kff g = true
    · rw [if_pos h7] at hk2
      rcases Option.bind_eq_some.mp hk2 with ⟨u2, hg, hs⟩
      rw [(pyStr?_eq_some u2 wk).mp hs] at hg
      exact Or.inr (hgm.2 "key_format_fields" kff g wk hkv hg)
    · rw [if_neg h7] at hk2
      rcases Option.bind_eq_some.mp hk2 with ⟨nff, hn1, hn2⟩
      rcases Option.bind_eq_some.mp hn1 with ⟨u2, hnv, hpd2⟩
      rw [(pyDict?_eq_some u2 nff).mp hpd2] at hnv
      by_cases h8 : dictContains nff g = true
      · rw [if_pos h8] at hn2
        rcases Option.bind_eq_some.mp hn2 with ⟨u3, hg, hs⟩
        rw [(pyStr?_eq_some u3 wk).mp hs] at hg
        exact Or.inr (hgm.2 "name_format_fields" nff g wk hnv hg)
      · rw [if_neg h8] at hn2
        exact Or.inl (Option.some.inj hn2).symm

/-- Under `goodMapping`, `_build_issue_data` never emits the structural
keys `issues` / `issuelinks`. -/
theorem build_no_structural (cfg : JiraConfig) (env : JiraEnv) (p : String)
    (fields : PyDict) (ex : List String) (body : PyDict) (k : String)
    (hgm : goodMapping cfg.custom_field_mapping)
    (hk : k = "issues" ∨ k = "issuelinks")
    (hok : build_issue_data cfg env p fields ex = Except.ok body) :
    dictContains body k = false := by
  cases hc : dictContains body k with
  | false => rfl
  | true =>
      exfalso
      rcases build_go_keys cfg env p ex fields [] body k hok hc with
        hacc | ⟨g, w, _, hgs, hgw⟩
      · simp [dictContains, dictGet?] at hacc
      · obtain ⟨hg1, _, hg3⟩ := (skippedField_false_iff ex g).mp hgs
        rcases wireKey_good cfg g k hgm hgw with rfl | ⟨hne1, hne2⟩
        · rcases hk with rfl | rfl
          · exact hg1 rfl
          · exact hg3 rfl
        · rcases hk with rfl | rfl
          · exact hne1 rfl
          · exact hne2 rfl

/-- C6: neither `issues` nor `issuelinks` ever appears among the keys of a
wire-format fields map — neither in the `_build_issue_data` translation
result (hence not in the update PUT body) nor in the full creation POST
body with its `project`/epic-link/`parent` injections. -/
theorem C6_no_structural_wire_keys :
    (∀ (cfg : JiraConfig) (env : JiraEnv) (p : String) (fields : PyDict)
       (ex : List String) (body : PyDict),
      goodMapping cfg.custom_field_mapping →
      build_issue_data cfg env p fields ex = Except.ok body →
      dictContains body "issues" = false ∧
      dictContains body "issuelinks" = false) ∧
    (∀ (cfg : JiraConfig) (env : JiraEnv) (p : String) (issue : PyDict)
       (ek pk : Option String) (ib : PyDict),
      goodMapping cfg.custom_field_mapping →
      initial_issue_data cfg env p issue ek pk = Except.ok ib →
      dictContains ib "issues" = false ∧
      dictContains ib "issuelinks" = false) := by
  constructor
  · intro cfg env p fields ex body hgm hok
    exact ⟨build_no_structural cfg env p fields ex body "issues" hgm
        (Or.inl rfl) hok,
      build_no_structural cfg env p fields ex body "issuelinks" hgm
        (Or.inr rfl) hok⟩
  · intro cfg env p issue ek pk ib hgm hok
    rcases initial_issue_data_ok_cases cfg env p issue ek pk ib hok with
      ⟨base, hb, hshape⟩
    have hbase : ∀ k, k = "issues" ∨ k = "issuelinks" →
        dictContains base k = false :=
      fun k hk => build_no_structural cfg env p issue
        cfg.post_creation_update_fields base k hgm hk hb
    have hmain : ∀ k, k = "issues" ∨ k = "issuelinks" →
        dictContains ib k = false := by
      intro k hk
      have hkp : k ≠ "project" := by rcases hk with rfl | rfl <;> simp
      have hkpar : k ≠ "parent" := by rcases hk with rfl | rfl <;> simp
      cases hc : dictContains ib k with
      | false => rfl
      | true =>
          exfalso
          rcases hshape with rfl | ⟨el, hel, rfl⟩ | rfl
          · rcases (dictContains_dictSet base "project" k _).mp hc with
              rfl | hc2
            · exact hkp rfl
            · rw [hbase k hk] at hc2; cases hc2
          · have hkel : k ≠ el := by
              have := hgm.1 "epicLink" el hel
              rcases hk with rfl | rfl
              · intro he; exact this.1 he.symm
              · intro he; exact this.2 he.symm
            rcases (dictContains_dictSet _ el k _).mp hc with rfl | hc2
            · exact hkel rfl
            · rcases (dictContains_dictSet base "project" k _).mp hc2 with
                rfl | hc3
              · exact hkp rfl
              · rw [hbase k hk] at hc3; cases hc3
          · rcases (dictContains_dictSet _ "parent" k _).mp hc with rfl | hc2
            · exact hkpar rfl
            · rcases (dictContains_dictSet base "project" k _).mp hc2 with
                rfl | hc3
              · exact hkp rfl
              · rw [hbase k hk] at hc3; cases hc3
    exact ⟨hmain "issues" (Or.inl rfl), hmain "issuelinks" (Or.inr rfl)⟩

theorem c6Cfg_good : goodMapping c6Cfg.custom_field_mapping := by
  constructor
  · intro k s h
    simp only [c6Cfg, dictGet?] at h
    split_ifs at h
    · simp at h
      subst h
      exact ⟨by decide, by decide⟩
    · cases h
    · cases h
  · intro k d k2 s h h2
    simp only [c6Cfg, dictGet?] at h
    split_ifs at h
    · cases h
    · simp at h
      subst h
      cases h2
    · simp at h
      subst h
      cases h2

theorem C6_no_structural_wire_keys_witness :
    (dictContains [("summary", PyVal.str "s")] "issues" = false ∧
     dictContains [("summary", PyVal.str "s")] "issuelinks" = false) ∧
    (dictContains [("summary", PyVal.str "s"),
        ("project", PyVal.dict [("key", PyVal.str "P")])] "issues" = false ∧
     dictContains [("summary", PyVal.str "s"),
        ("project", PyVal.dict [("key", PyVal.str "P")])] "issuelinks" =
       false) :=
  ⟨C6_no_structural_wire_keys.1 c6Cfg c6Env "P" [("summary", PyVal.str "s")]
      [] [("summary", PyVal.str "s")] c6Cfg_good rfl,
   C6_no_structural_wire_keys.2 c6Cfg c6Env "P" [("summary", PyVal.str "s")]
      none none
      [("summary", PyVal.str "s"),
       ("project", PyVal.dict [("key", PyVal.str "P")])] c6Cfg_good rfl⟩

/-- C3: a field named in `post_creation_update_fields` is excluded from the
creation POST body and carried by the update PUT body; any other input
field is carried by the creation POST body and excluded from the update PUT
body. `wk` is the wire key the translation stores the field under; the
collision hypotheses say no other input field and no injected key
(`project`, `parent`, epic link) uses the same wire key. Presence in the
update body implies the PUT is actually sent, since the source sends it
whenever the update dict is non-empty. -/
theorem C3_post_creation_update_split
    (cfg : JiraConfig) (env : JiraEnv) (p : String) (issue : PyDict)
    (ek pk : Option String) (f : String) (v : PyVal) (wk : String)
    (ib ub : PyDict)
    (hmem : (f, v) ∈ issue)
    (hf1 : f ≠ "issues") (hf3 : f ≠ "issuelinks")
    (hwk : wireKey? cfg f = some wk)
    (hno : ∀ g w, (g, w) ∈ issue → g ≠ f → wireKey? cfg g ≠ some wk)
    (hwkp : wk ≠ "project") (hwkpar : wk ≠ "parent")
    (hepic : ∀ s, dictGet? cfg.custom_field_mapping "epicLink" =
      some (PyVal.str s) → s ≠ wk)
    (hok1 : initial_issue_data cfg env p issue ek pk = Except.ok ib)
    (hok2 : update_issue_data cfg env p issue = Except.ok ub) :
    (f ∈ cfg.post_creation_update_fields →
      dictContains ib wk = false ∧ dictContains ub wk = true) ∧
    (f ∉ cfg.post_creation_update_fields →
      dictContains ib wk = true ∧ dictContains ub wk = false) := by
  have hfkeys : f ∈ dictKeys issue := List.mem_map_of_mem Prod.fst hmem
  rcases initial_issue_data_ok_cases cfg env p issue ek pk ib hok1 with
    ⟨base, hb, hshape⟩
  have hbF : issue.foldlM
      (buildStep cfg env p cfg.post_creation_update_fields) [] =
      Except.ok base := hb
  have huF : issue.foldlM
      (buildStep cfg env p (fields_set_during_issue_creation cfg issue)) [] =
      Except.ok ub := hok2
  constructor
  · intro hf
    constructor
    · -- absent from the creation POST body
      have hbase : dictGet? base wk = none := by
        rw [build_go_get_preserved cfg env p cfg.post_creation_update_fields
          issue [] base wk hbF ?_]
        · rfl
        · intro g w hm
          by_cases hgf : g = f
          · subst hgf
            exact Or.inl ((skippedField_true_iff _ g).mpr
              (Or.inr (Or.inl hf)))
          · exact Or.inr (hno g w hm hgf)
      have hbasec : dictContains base wk = false := by
        simp [dictContains, hbase]
      cases hc : dictContains ib wk with
      | false => rfl
      | true =>
          exfalso
          rcases hshape with rfl | ⟨el, hel, rfl⟩ | rfl
          · rcases (dictContains_dictSet base "project" wk _).mp hc with
              rfl | hc2
            · exact hwkp rfl
            · rw [hbasec] at hc2; cases hc2
          · rcases (dictContains_dictSet _ el wk _).mp hc with heq | hc2
            · exact hepic el hel heq.symm
            · rcases (dictContains_dictSet base "project" wk _).mp hc2 with
                rfl | hc3
              · exact hwkp rfl
              · rw [hbasec] at hc3; cases hc3
          · rcases (dictContains_dictSet _ "parent" wk _).mp hc with rfl | hc2
            · exact hwkpar rfl
            · rcases (dictContains_dictSet base "project" wk _).mp hc2 with
                rfl | hc3
              · exact hwkp rfl
              · rw [hbasec] at hc3; cases hc3
    · -- present in the update PUT body
      refine build_go_mem_of_field cfg env p
        (fields_set_during_issue_creation cfg issue) issue [] ub f v wk
        huF hmem ?_ hwk
      rw [skippedField_false_iff]
      refine ⟨hf1, ?_, hf3⟩
      intro hmem2
      exact ((mem_fields_set_during cfg issue f).mp hmem2).2 hf
  · intro hf
    constructor
    · -- present in the creation POST body
      have hbase : dictContains base wk = true := by
        refine build_go_mem_of_field cfg env p
          cfg.post_creation_update_fields issue [] base f v wk hbF hmem ?_ hwk
        rw [skippedField_false_iff]
        exact ⟨hf1, hf, hf3⟩
      rcases hshape with rfl | ⟨el, hel, rfl⟩ | rfl
      · exact (dictContains_dictSet base "project" wk _).mpr (Or.inr hbase)
      · exact (dictContains_dictSet _ el wk _).mpr (Or.inr
          ((dictContains_dictSet base "project" wk _).mpr (Or.inr hbase)))
      · exact (dictContains_dictSet _ "parent" wk _).mpr (Or.inr
          ((dictContains_dictSet base "project" wk _).mpr (Or.inr hbase)))
    · -- absent from the update PUT body
      have hub : dictGet? ub wk = none := by
        rw [build_go_get_preserved cfg env p
          (fields_set_during_issue_creation cfg issue) issue [] ub wk huF ?_]
        · rfl
        · intro g w hm
          by_cases hgf : g = f
          · subst hgf
            refine Or.inl ((skippedField_true_iff _ g).mpr (Or.inr (Or.inl ?_)))
            exact (mem_fields_set_during cfg issue g).mpr ⟨hfkeys, hf⟩
          · exact Or.inr (hno g w hm hgf)
      simp [dictContains, hub]

theorem C3_post_creation_update_split_witness :
    dictContains [("summary", PyVal.str "s"),
      ("project", PyVal.dict [("key", PyVal.str "P")])] "rank" = false ∧
    dictContains [("rank", PyVal.int 1)] "rank" = true :=
  (C3_post_creation_update_split c3Cfg c3Env "P"
      [("summary", PyVal.str "s"), ("rank", PyVal.int 1)] none none
      "rank" (PyVal.int 1) "rank"
      [("summary", PyVal.str "s"),
       ("project", PyVal.dict [("key", PyVal.str "P")])]
      [("rank", PyVal.int 1)]
      (by simp) (by decide) (by decide) rfl
      (by
        intro g w hm hne
        simp at hm
        rcases hm with ⟨rfl, rfl⟩ | ⟨rfl, rfl⟩
        · decide
        · exact absurd rfl hne)
      (by decide) (by decide)
      (by intro s h; simp [c3Cfg, dictGet?] at h)
      rfl rfl).1 (by simp [c3Cfg])

/-- Walking a concatenation of epic lists concatenates their creation
traces: the walk follows input list order and each epic's whole subtree is
emitted before the next epic is touched. -/
theorem create_epics_trace_append (xs ys : List JIssue) :
    create_epics_trace (xs ++ ys) =
      create_epics_trace xs ++ create_epics_trace ys := by
  induction xs with
  | nil => simp [create_epics_trace]
  | cons e rest ih =>
      rw [List.cons_append, create_epics_trace, create_epics_trace, ih,
        List.append_assoc]

theorem create_epics_trace_eq (l : List JIssue) :
    create_epics_trace l = create_list_trace l := by
  induction l with
  | nil => rfl
  | cons e rest ih => rw [create_epics_trace, create_list_trace, ih]

/-- Every node of the forest contributes a contiguous segment — its own
creation followed by its subtree — to the creation trace. -/
theorem trace_decomp (l : List JIssue) (t : JIssue)
    (hm : t ∈ forestNodes l) :
    ∃ pre post, create_list_trace l = pre ++ issueTrace t ++ post := by
  match l with
  | [] =>
      rw [forestNodes] at hm
      cases hm
  | JIssue.mk s ty none :: rest =>
      rw [forestNodes] at hm
      rcases List.mem_cons.mp hm with heq | hm2
      · refine ⟨[], create_list_trace rest, ?_⟩
        rw [create_list_trace, heq, List.nil_append]
      · rcases List.mem_append.mp hm2 with hdesc | hrest
        · rw [properDescendants, childForestNodes] at hdesc
          cases hdesc
        · obtain ⟨pre, post, heq2⟩ := trace_decomp rest t hrest
          refine ⟨issueTrace (JIssue.mk s ty none) ++ pre, post, ?_⟩
          rw [create_list_trace, heq2]
          simp [List.append_assoc]
  | JIssue.mk s ty (some kids) :: rest =>
      rw [forestNodes] at hm
      rcases List.mem_cons.mp hm with heq | hm2
      · refine ⟨[], create_list_trace rest, ?_⟩
        rw [create_list_trace, heq, List.nil_append]
      · rcases List.mem_append.mp hm2 with hdesc | hrest
        · rw [properDescendants, childForestNodes] at hdesc
          obtain ⟨pre, post, heq2⟩ := trace_decomp kids t hdesc
          refine ⟨s :: pre, post ++ create_list_trace rest, ?_⟩
          rw [create_list_trace, issueTrace, childListTrace, heq2]
          simp [List.append_assoc]
        · obtain ⟨pre, post, heq2⟩ := trace_decomp rest t hrest
          refine ⟨issueTrace (JIssue.mk s ty (some kids)) ++ pre, post, ?_⟩
          rw [create_list_trace, heq2]
          simp [List.append_assoc]
termination_by sizeOf l
decreasing_by
  all_goals simp_wf
  all_goals omega

/-- Each node summary occurs in the creation trace of its forest. -/
theorem summary_mem_trace (l : List JIssue) (d : JIssue)
    (hm : d ∈ forestNodes l) :
    d.summary ∈ create_list_trace l := by
  match l with
  | [] =>
      rw [forestNodes] at hm
      cases hm
  | JIssue.mk s ty none :: rest =>
      rw [forestNodes] at hm
      rw [create_list_trace]
      rcases List.mem_cons.mp hm with heq | hm2
      · subst heq
        rw [issueTrace]
        exact List.mem_append_left _ (List.mem_cons_self _ _)
      · rcases List.mem_append.mp hm2 with hdesc | hrest
        · rw [properDescendants, childForestNodes] at hdesc
          cases hdesc
        · exact List.mem_append_right _ (summary_mem_trace rest d hrest)
  | JIssue.mk s ty (some kids) :: rest =>
      rw [forestNodes] at hm
      rw [create_list_trace]
      rcases List.mem_cons.mp hm with heq | hm2
      · subst heq
        rw [issueTrace]
        exact List.mem_append_left _ (List.mem_cons_self _ _)
      · rcases List.mem_append.mp hm2 with hdesc | hrest
        · rw [properDescendants, childForestNodes] at hdesc
          refine List.mem_append_left _ ?_
          rw [issueTrace, childListTrace]
          exact List.mem_cons_of_mem _ (summary_mem_trace kids d hdesc)
        · exact List.mem_append_right _ (summary_mem_trace rest d hrest)
termination_by sizeOf l
decreasing_by
  all_goals simp_wf
  all_goals omega


/-- A strict descendant's summary occurs in the child part of its
ancestor's trace segment. -/
theorem summary_mem_childTrace (t d : JIssue)
    (hd : d ∈ properDescendants t) :
    d.summary ∈ childListTrace t.children := by
  rcases t with ⟨s, ty, c⟩
  rw [properDescendants] at hd
  rcases c with _ | kids
  · rw [childForestNodes] at hd
    cases hd
  · rw [childForestNodes] at hd
    rw [JIssue.children, childListTrace]
    exact summary_mem_trace kids d hd

/-- With duplicate-free summaries, every node is created strictly before
each of its strict descendants. -/
theorem parent_before_descendant (l : List JIssue)
    (hnd : (create_list_trace l).Nodup) (t : JIssue)
    (ht : t ∈ forestNodes l) (d : JIssue) (hdd : d ∈ properDescendants t) :
    (create_list_trace l).indexOf t.summary <
      (create_list_trace l).indexOf d.summary := by
  obtain ⟨pre, post, heq⟩ := trace_decomp l t ht
  have hit : issueTrace t = t.summary :: childListTrace t.children := by
    rcases t with ⟨s, ty, c⟩
    rfl
  have hds : d.summary ∈ childListTrace t.children :=
    summary_mem_childTrace t d hdd
  have hL : create_list_trace l =
      pre ++ t.summary :: (childListTrace t.children ++ post) := by
    rw [heq, hit]
    simp [List.append_assoc]
  rw [hL] at hnd ⊢
  rcases List.nodup_append.mp hnd with ⟨_, hnd2, hdisj⟩
  have ht_pre : t.summary ∉ pre :=
    fun h => hdisj h (List.mem_cons_self _ _)
  have hd_tail : d.summary ∈ childListTrace t.children ++ post :=
    List.mem_append_left _ hds
  have hd_pre : d.summary ∉ pre :=
    fun h => hdisj h (List.mem_cons_of_mem _ hd_tail)
  have hd_ne : t.summary ≠ d.summary := by
    intro he
    exact (List.nodup_cons.mp hnd2).1 (he ▸ hd_tail)
  rw [List.indexOf_append_of_not_mem ht_pre,
    List.indexOf_append_of_not_mem hd_pre]
  apply Nat.add_lt_add_left
  rw [List.indexOf_cons_self, List.indexOf_cons_ne _ hd_ne]
  exact Nat.succ_pos _


/-- C4: the tree build's creation sequence follows input list order and is
depth-first — concatenating epic lists concatenates their traces (each
subtree is a contiguous block), and whenever the created summaries are
distinct, every parent (and every epic) is created strictly before each of
its descendants. -/
theorem C4_tree_creation_order :
    (∀ xs ys : List JIssue, create_epics_trace (xs ++ ys) =
      create_epics_trace xs ++ create_epics_trace ys) ∧
    (∀ epics : List JIssue, (create_epics_trace epics).Nodup →
      ∀ t ∈ forestNodes epics, ∀ d ∈ properDescendants t,
        (create_epics_trace epics).indexOf t.summary <
          (create_epics_trace epics).indexOf d.summary) := by
  constructor
  · exact create_epics_trace_append
  · intro epics hnd t ht d hd
    rw [create_epics_trace_eq] at hnd ⊢
    exact parent_before_descendant epics hnd t ht d hd

theorem C4_tree_creation_order_witness :
    create_epics_trace ([c4E] ++ [c4I2]) =
      create_epics_trace [c4E] ++ create_epics_trace [c4I2] ∧
    (create_epics_trace [c4E]).indexOf (JIssue.summary c4E) <
      (create_epics_trace [c4E]).indexOf (JIssue.summary c4S) :=
  ⟨C4_tree_creation_order.1 [c4E] [c4I2],
   C4_tree_creation_order.2 [c4E] (by decide) c4E
     (by rw [forestNodes]; exact List.mem_cons_self c4E _) c4S
     (by
      show c4S ∈ forestNodes [c4I1, c4I2]
      rw [forestNodes]
      refine List.mem_cons_of_mem _ (List.mem_append_left _ ?_)
      show c4S ∈ forestNodes [c4S]
      rw [forestNodes]
      exact List.mem_cons_self _ _)⟩

/-- C1 (code evaluated at the failing input): with a two-entry
`issuelinks` list the source emits exactly ONE link request, built from the
LAST entry — the `link_jira_issues` call sits after the `for` loop, so the
other entries' loop-variable assignments are overwritten. The claim's
contract (one link call per entry, here two calls) does not hold on the
code. -/
theorem C1_only_last_issuelink_sent :
    issuelinks_calls
      [("summary", PyVal.str "s"),
       ("issuelinks", PyVal.list
         [PyVal.dict [("type", PyVal.dict [("name", PyVal.str "Blocks")]),
                      ("outwardIssue", PyVal.dict [("key", PyVal.str "A-1")])],
          PyVal.dict [("type", PyVal.dict [("name", PyVal.str "Clones")]),
                      ("outwardIssue",
                        PyVal.dict [("key", PyVal.str "A-2")])]])]
      "NEW-1" =
      Except.ok [link_jira_issues_data "NEW-1" (PyVal.str "A-2")
        (PyVal.str "Clones")] ∧
    ([link_jira_issues_data "NEW-1" (PyVal.str "A-2")
        (PyVal.str "Clones")]).length = 1 := ⟨rfl, rfl⟩

/-- C2 (code evaluated at the failing input): `transform_field_value` on a
dict-valued field iterates the dict's KEYS and unpacks each key string into
two characters (`for key, val in field_value` is missing `.items()`).
A one-entry mapping `{'team': 'X'}` raises `ValueError` instead of
producing `[{'team': 'X'}]`; a two-character key `'ab'` produces the
character-split `[{'a': 'b'}]` instead of `[{'ab': 'X'}]`. -/
theorem C2_dict_value_iterates_keys :
    transform_field_value (PyVal.dict [("team", PyVal.str "X")]) "key" =
      Except.error (PyErr.valueError "cannot unpack dict key into key, val") ∧
    transform_field_value (PyVal.dict [("ab", PyVal.str "X")]) "key" =
      Except.ok (PyVal.list [PyVal.dict [("a", PyVal.str "b")]]) :=
  ⟨rfl, rfl⟩

/-- C8 counterexample: a 2xx creation response whose body has no `key`
entry makes the key-extraction step fail with `KeyError('key')` from the
`response_data['key']` subscript — not with the dedicated CreationFailed
`ValueError` the claim names (which is a distinct error). -/
theorem C8_missing_key_raises_keyerror :
    extract_issue_key [("id", PyVal.str "10000")] =
      Except.error (PyErr.keyError "key") ∧
    PyErr.keyError "key" ≠
      PyErr.valueError
        "Failed to retrieve issue key from the Jira response" :=
  ⟨rfl, by decide⟩

/-- C8 (amended): a creation response without a `key` entry fails with
`KeyError('key')`; one whose `key` is present but falsy (empty/None) fails
with the dedicated CreationFailed `ValueError`. Either way the extraction
step returns an error, which propagates and aborts the remaining tree
walk. -/
theorem C8_key_extraction_failures (rd : PyDict) :
    (dictGet? rd "key" = none →
      extract_issue_key rd = Except.error (PyErr.keyError "key")) ∧
    (∀ k, dictGet? rd "key" = some k → pyTruthy k = false →
      extract_issue_key rd = Except.error (PyErr.valueError
        "Failed to retrieve issue key from the Jira response")) := by
  constructor
  · intro h
    simp [extract_issue_key, dictGet, h]
  · intro k hk ht
    simp [extract_issue_key, dictGet, hk, ht]

theorem C8_key_extraction_failures_witness :
    extract_issue_key [] = Except.error (PyErr.keyError "key") ∧
    extract_issue_key [("key", PyVal.str "")] =
      Except.error (PyErr.valueError
        "Failed to retrieve issue key from the Jira response") :=
  ⟨(C8_key_extraction_failures []).1 rfl,
   (C8_key_extraction_failures [("key", PyVal.str "")]).2
     (PyVal.str "") rfl rfl⟩

/-- C9 (code evaluated at the failing input): on a 2xx response with an
empty body, `send_request` executes `response_json = response` and returns
the raw `requests.Response` object — raw transport internals, contradicting
the function's own `Dict[str, Any]` annotation — rather than an
empty/absent result. It does not raise a JSON parse error. -/
theorem C9_empty_body_returns_raw_response :
    send_request_result ⟨200, "", none⟩ =
      Except.ok (SendResult.responseObj ⟨200, "", none⟩) := rfl
